import Mathlib

/-!
Verification development for the byteautoui device-automation service.

The definitions below are a shallow embedding of the Python source:
pure computations become Lean functions, stateful components become
explicit state-passing functions, machine time is modelled as exact
rational seconds, and fallible code returns `Except`/`Option`.
-/

namespace ByteAutoUI

/-- Python `int()` truncation toward zero on a rational value. -/
def pyInt (q : ℚ) : Int := if 0 ≤ q then ⌊q⌋ else ⌈q⌉

/-- Python dict lookup (`d.get(k)`), first binding wins. -/
def lookupKey {α : Type} (l : List (String × α)) (k : String) : Option α :=
  match l with
  | [] => none
  | (k2, v) :: rest => if k2 = k then some v else lookupKey rest k

/-- Python dict assignment (`d[k] = v`): replace the binding if present,
append otherwise. -/
def setKey {α : Type} (l : List (String × α)) (k : String) (v : α) :
    List (String × α) :=
  match l with
  | [] => [(k, v)]
  | (k2, v2) :: rest => if k2 = k then (k2, v) :: rest else (k2, v2) :: setKey rest k v

/-- Python dict deletion (`del d[k]`), no-op when absent. -/
def eraseKey {α : Type} (l : List (String × α)) (k : String) :
    List (String × α) :=
  match l with
  | [] => []
  | (k2, v2) :: rest => if k2 = k then eraseKey rest k else (k2, v2) :: eraseKey rest k

/-! ## Assertion engine (src/byteautoui/assertion.py) -/

/-- `constants.MAX_TEMPLATE_SIZE = 1024 * 1024` (bytes). -/
def MAX_TEMPLATE_SIZE : Nat := 1024 * 1024

/-- The validation errors raised by `execute_combined_assertion` before the
attempt loop runs (ValueError / AssertionError in the source). -/
inductive AssertError
  | badOperator
  | emptyConditions
  | badTimeout
  | badInterval
deriving DecidableEq

/-- The message attached to the result of `execute_combined_assertion`:
success, plain failure, or the timeout message carrying elapsed
milliseconds, the configured timeout and the attempt count. -/
inductive AssertMessage
  | passed
  | failed
  | timedOut (elapsedMs timeoutMs : Int) (attempts : Nat)
deriving DecidableEq

/-- Result of the attempt loop of `execute_combined_assertion`: the success
flag, the message, the attempt counter, the per-condition booleans of the
final attempt, and the sleep durations (ms) performed between attempts. -/
structure LoopResult where
  success : Bool
  message : AssertMessage
  attempts : Nat
  condResults : List Bool
  sleptMs : List Int
deriving DecidableEq

/-- The `operators = {'and': all, 'or': any}` dispatch. -/
def applyOperator (op : String) (results : List Bool) : Bool :=
  if op = "and" then results.all id else results.any id

/-- The `while True` attempt loop of `execute_combined_assertion`.
`evalC n c` is the boolean produced by `execute_condition` for condition
`c` on attempt `n`; `clock n` is the `time.time()` value read at the
deadline check of attempt `n`.  `fuel` bounds the recursion; `none` means
the fuel ran out before the loop returned. -/
def assertLoop {α : Type} (op : String) (conds : List α)
    (evalC : Nat → α → Bool) (enabled : Bool) (timeoutMs intervalMs : Int)
    (startTime deadline : ℚ) (clock : Nat → ℚ) (attempt : Nat)
    (sleptRev : List Int) : Nat → Option LoopResult
  | 0 => none
  | fuel + 1 =>
    let att := attempt + 1
    let results := conds.map (evalC att)
    let finalSuccess := applyOperator op results
    if finalSuccess then
      some ⟨true, .passed, att, results, sleptRev.reverse⟩
    else if enabled = false then
      some ⟨false, .failed, att, results, sleptRev.reverse⟩
    else
      let current := clock att
      if deadline ≤ current then
        some ⟨false,
          .timedOut (pyInt ((current - startTime) * 1000)) timeoutMs att,
          att, results, sleptRev.reverse⟩
      else
        assertLoop op conds evalC enabled timeoutMs intervalMs startTime
          deadline clock att (intervalMs :: sleptRev) fuel

/-- The `wait_config` dict handed to `execute_combined_assertion`; fields
may be absent, mirroring `dict.get` with defaults. -/
structure WaitDict where
  enabled : Option Bool
  timeout : Option Int
  interval : Option Int
deriving DecidableEq

/-- `wait_config.get('enabled', False) if wait_config else False`. -/
def waitEnabled (wc : Option WaitDict) : Bool :=
  match wc with
  | some w => w.enabled.getD false
  | none => false

/-- `wait_config.get('timeout', 3000) if wait_config else 3000`. -/
def waitTimeout (wc : Option WaitDict) : Int :=
  match wc with
  | some w => w.timeout.getD 3000
  | none => 3000

/-- `wait_config.get('interval', 300) if wait_config else 300`. -/
def waitInterval (wc : Option WaitDict) : Int :=
  match wc with
  | some w => w.interval.getD 300
  | none => 300

/-- `assertion.execute_combined_assertion`: validate the operator, the
condition list and the wait configuration, then run the attempt loop. -/
def execute_combined_assertion {α : Type} (fuel : Nat) (operator : String)
    (conds : List α) (evalC : Nat → α → Bool) (wait_config : Option WaitDict)
    (startTime : ℚ) (clock : Nat → ℚ) :
    Except AssertError (Option LoopResult) :=
  if ¬(operator = "and" ∨ operator = "or") then .error .badOperator
  else if conds.isEmpty then .error .emptyConditions
  else if waitEnabled wait_config = true ∧ waitTimeout wait_config ≤ 0 then
    .error .badTimeout
  else if waitEnabled wait_config = true ∧ waitInterval wait_config ≤ 0 then
    .error .badInterval
  else
    let deadline := if waitEnabled wait_config then
        startTime + (waitTimeout wait_config : ℚ) / 1000
      else 0
    .ok (assertLoop operator conds evalC (waitEnabled wait_config)
      (waitTimeout wait_config) (waitInterval wait_config) startTime deadline
      clock 0 [] fuel)

/-- The validation errors of the pydantic `WaitConfig` model
(command_types.py): field validators for `timeout` and `interval`, and
`model_post_init` for `interval > timeout`. -/
inductive WaitConfigError
  | timeoutNotPositive
  | intervalNotPositive
  | intervalGreaterThanTimeout
deriving DecidableEq

/-- A validated `WaitConfig` (command_types.WaitConfig). -/
structure WaitConfig where
  enabled : Bool
  timeout : Int
  interval : Int
deriving DecidableEq

/-- Constructing a `WaitConfig` through its pydantic validators: the
`timeout` validator rejects `timeout <= 0`, the `interval` validator
rejects `interval <= 0`, and `model_post_init` rejects
`interval > timeout`. -/
def WaitConfig.validate (enabled : Bool) (timeout interval : Int) :
    Except WaitConfigError WaitConfig :=
  if timeout ≤ 0 then .error .timeoutNotPositive
  else if interval ≤ 0 then .error .intervalNotPositive
  else if timeout < interval then .error .intervalGreaterThanTimeout
  else .ok ⟨enabled, timeout, interval⟩

/-! ## Element existence (assertion.validate_element_exists) -/

/-- An item of an lxml XPath result list: an element carries its raw
attribute dict; XPath can also yield non-element items (strings,
attribute values), which the source skips with an `isinstance` check. -/
inductive XPathItem
  | elem (attrs : List (String × String))
  | nonElem
deriving DecidableEq

/-- `PLATFORM_ATTR_MAPPING[platform]`, with the `.get(platform, android)`
fallback of the source. -/
def platformAttrMapping (platform : String) : List (String × String) :=
  if platform = "ios" then
    [("text", "label"), ("resourceId", "name"), ("className", "type")]
  else if platform = "harmony" then
    [("text", "text"), ("resourceId", "id"), ("className", "type")]
  else
    [("text", "text"), ("resourceId", "resource-id"), ("className", "class")]

/-- The inner attribute loop of `validate_element_exists`: an element
passes when every specified attribute matches.  A `None`-valued attribute
is skipped; an attribute key missing from the platform table is skipped
(with a warning in the source); otherwise `elem.get(xml_attr, '')` must
equal the expected string exactly. -/
def elemAllMatch (mapping : List (String × String))
    (attributes : List (String × Option String))
    (attrs : List (String × String)) : Bool :=
  attributes.all fun kv =>
    match kv.2 with
    | none => true
    | some expected =>
      match lookupKey mapping kv.1 with
      | none => true
      | some xmlAttr => ((lookupKey attrs xmlAttr).getD "") = expected

/-- The per-item check of the element loop in `validate_element_exists`:
non-element XPath results are skipped by the `isinstance` guard. -/
def itemPasses (mapping : List (String × String))
    (attributes : List (String × Option String)) : XPathItem → Bool
  | .nonElem => false
  | .elem e => elemAllMatch mapping attributes e

/-- The detail dict returned by `validate_element_exists`. -/
inductive ElemDetails
  | xpathNothing (xpath : String)
  | attrMismatch (found_count : Nat) (xpath : String)
  | found (found_count : Nat) (xpath : String)
deriving DecidableEq

/-- `assertion.validate_element_exists`, after the hierarchy dump and the
XPath query produced `items`.  `attributes` is `selector.attributes`
(`none` models Python `None`; Python truthiness also treats the empty
dict as falsy). -/
def validate_element_exists (xpath : String) (items : List XPathItem)
    (attributes : Option (List (String × Option String)))
    (platform : String) : Bool × ElemDetails :=
  if items.isEmpty then (false, .xpathNothing xpath)
  else
    let truthyAttrs : Bool := match attributes with
      | some l => !l.isEmpty
      | none => false
    if truthyAttrs then
      let mapping := platformAttrMapping platform
      let attrList := attributes.getD []
      let matched := items.any (itemPasses mapping attrList)
      if matched then (true, .found items.length xpath)
      else (false, .attrMismatch items.length xpath)
    else (true, .found items.length xpath)

/-! ## Image existence (assertion.validate_image_exists) -/

/-- The detail dict returned by `validate_image_exists`: the oversize
rejection, the template-larger-than-screen rejection, or the result of
`cv2.matchTemplate` (the only branch that performs matching). -/
inductive ImgDetails
  | oversize (sizeBytes : Nat)
  | templateLargerThanScreen (tw th sw sh : Nat)
  | matched (maxConfidence threshold : ℚ) (location : Option (Nat × Nat))
deriving DecidableEq

/-- Environment of a `validate_image_exists` call: the screenshot
dimensions, the dimensions the template bytes decode to, and the peak of
the normalized cross-correlation (`cv2.minMaxLoc` of
`cv2.matchTemplate`). -/
structure MatchEnv where
  screenshotW : Nat
  screenshotH : Nat
  templateW : Nat
  templateH : Nat
  maxVal : ℚ
  maxLoc : Nat × Nat
deriving DecidableEq

/-- `assertion.validate_image_exists` after base64 decoding produced
`tbytes` (the raw template bytes): the size limit is checked first, then
the dimension check, then template matching with
`found = max_val >= threshold`. -/
def validate_image_exists (env : MatchEnv) (tbytes : List Nat)
    (threshold : ℚ) : Bool × ImgDetails :=
  if tbytes.length > MAX_TEMPLATE_SIZE then
    (false, .oversize tbytes.length)
  else if env.templateH > env.screenshotH ∨ env.templateW > env.screenshotW then
    (false, .templateLargerThanScreen env.templateW env.templateH
      env.screenshotW env.screenshotH)
  else
    let found : Bool := decide (threshold ≤ env.maxVal)
    (found, .matched env.maxVal threshold (if found then some env.maxLoc else none))

/-! ## Command dispatch: tap (command_proxy.tap) -/

/-- `command_proxy.tap`: with `isPercent` the coordinates are multiplied
by the current window size and truncated with `int()`; the driver is then
invoked at `(int(x), int(y))`. -/
def tap (winW winH : Int) (x y : ℚ) (isPercent : Bool) : Int × Int :=
  if isPercent then
    (pyInt ((winW : ℚ) * x), pyInt ((winH : ℚ) * y))
  else
    (pyInt x, pyInt y)

/-! ## click_element (command_proxy.click_element) -/

/-- A parsed hierarchy node as `click_element` consumes it: the optional
`bounds` list and the raw properties, with the numeric values the source
obtains via `float(...)` modelled as rationals. -/
structure PNode where
  bounds : Option (List ℚ)
  props : List (String × ℚ)
deriving DecidableEq

/-- The polling loop of `click_element`: while `time.time() < deadline`,
call `find_elements`; take the first result if any, otherwise sleep 0.5 s
and retry.  `finds k` is the result list of poll `k` (starting at 0),
`clock k` the time read at its loop check.  Returns the node found (if
any), the number of polls performed, and the sleep durations; `none`
means the fuel ran out. -/
def clickSearch (finds : Nat → List PNode) (clock : Nat → ℚ) (deadline : ℚ)
    (k : Nat) : Nat → Option (Option PNode × Nat × List ℚ)
  | 0 => none
  | fuel + 1 =>
    if clock k < deadline then
      match finds k with
      | n :: _ => some (some n, k + 1, List.replicate k (1/2 : ℚ))
      | [] => clickSearch finds clock deadline (k + 1) fuel
    else
      some (none, k, List.replicate k (1/2 : ℚ))

/-- The `x/y/width/height` fallback path of the bounds computation in
`click_element`: derive `[x, y, x+w, y+h]` from the properties when all
four keys are present. -/
def derivedBox (node : PNode) : Option (ℚ × ℚ × ℚ × ℚ) :=
  match lookupKey node.props "x", lookupKey node.props "y",
        lookupKey node.props "width", lookupKey node.props "height" with
  | some x, some y, some w, some h => some (x, y, x + w, y + h)
  | _, _, _, _ => none

/-- The bounds computation of `click_element`: use `node.bounds` when it
is a 4-element list, otherwise derive the box from the `x/y/width/height`
properties; `none` when neither source is available. -/
def nodeBox (node : PNode) : Option (ℚ × ℚ × ℚ × ℚ) :=
  match node.bounds with
  | some bs =>
    if h : bs.length = 4 then
      some (bs.get ⟨0, by omega⟩, bs.get ⟨1, by omega⟩,
            bs.get ⟨2, by omega⟩, bs.get ⟨3, by omega⟩)
    else derivedBox node
  | none => derivedBox node

/-- The outcome of `click_element`. -/
inductive ClickOutcome
  | notFoundTimeout
  | boundsUnavailable
  | tapped (x y : Int)
deriving DecidableEq

/-- The tail of `click_element` once the polling loop has finished: raise
`ElementNotFound` when no node was found or its bounds are unavailable;
when `x2 <= 1 and y2 <= 1` treat the box as normalized and multiply by
the window size; tap the integer center. -/
def clickTapOutcome (winW winH : ℚ) (found : Option PNode) : ClickOutcome :=
  match found with
  | none => .notFoundTimeout
  | some node =>
    match nodeBox node with
    | none => .boundsUnavailable
    | some (x1, y1, x2, y2) =>
      let isPercent : Bool := decide (x2 ≤ 1 ∧ y2 ≤ 1)
      let (a1, b1, a2, b2) :=
        if isPercent then (x1 * winW, y1 * winH, x2 * winW, y2 * winH)
        else (x1, y1, x2, y2)
      .tapped (pyInt ((a1 + a2) / 2)) (pyInt ((b1 + b2) / 2))

/-- `command_proxy.click_element` assembled from its polling loop and tap
computation; also reports the sleep durations of the polling loop. -/
def click_element (fuel : Nat) (finds : Nat → List PNode) (clock : Nat → ℚ)
    (deadline : ℚ) (winW winH : ℚ) : Option (ClickOutcome × Nat × List ℚ) :=
  match clickSearch finds clock deadline 0 fuel with
  | none => none
  | some (found, polls, sleeps) =>
    some (clickTapOutcome winW winH found, polls, sleeps)

/-! ## iOS tunnel manager (remote/ios_tunnel_manager.py) -/

/-- The mutable state of `IOSTunnelManager` plus the liveness of the
child processes it spawned: `managed` is `_tunnel_processes` (udid to
pid), `refs` is `_device_ref_counts`, `alive` holds the pids of child
processes still running, and `nextPid` generates fresh pids. -/
structure TMState where
  managed : List (String × Nat)
  refs : List (String × Int)
  alive : List Nat
  nextPid : Nat
deriving DecidableEq

/-- The manager starts with no tunnels and no reference counts. -/
def TMState.init : TMState := ⟨[], [], [], 0⟩

/-- `is_tunnel_running`: a live managed process answers true; a dead
managed process is cleaned up (its entries deleted) and, like the
no-entry case, the answer falls back to a system-wide `pgrep` search. -/
def is_tunnel_running (pgrep : String → Bool) (s : TMState) (u : String) :
    Bool × TMState :=
  match lookupKey s.managed u with
  | some pid =>
    if pid ∈ s.alive then (true, s)
    else (pgrep u,
      { s with managed := eraseKey s.managed u, refs := eraseKey s.refs u })
  | none => (pgrep u, s)

/-- `_stop_tunnel`: terminate the managed process and delete the
process, refcount and log entries; no-op when unmanaged. -/
def stop_tunnel (s : TMState) (u : String) : TMState :=
  match lookupKey s.managed u with
  | none => s
  | some pid =>
    { s with managed := eraseKey s.managed u,
             refs := eraseKey s.refs u,
             alive := s.alive.filter (fun p => p ≠ pid) }

/-- The spawn tail of `start_tunnel`: launch the child and wait the grace
period.  When the child survives (`spawnSurvives`) it is recorded with
refcount 1; when it died during the grace period the manager raises,
cleans up and reports failure with no entry recorded. -/
def spawnTunnel (spawnSurvives : Bool) (s : TMState) (u : String) :
    TMState × Bool :=
  let pid := s.nextPid
  if spawnSurvives then
    ({ s with managed := setKey s.managed u pid,
              refs := setKey s.refs u 1,
              alive := pid :: s.alive,
              nextPid := pid + 1 }, true)
  else
    ({ s with nextPid := pid + 1 }, false)

/-- `start_tunnel`: without `force`, a running tunnel is reused with its
refcount incremented; otherwise (and always under `force`, which first
stops any managed instance) a fresh tunnel is spawned. -/
def start_tunnel (pgrep : String → Bool) (spawnSurvives : Bool)
    (s : TMState) (u : String) (force : Bool) : TMState × Bool :=
  if force then
    let s1 := if (lookupKey s.managed u).isSome then stop_tunnel s u else s
    spawnTunnel spawnSurvives s1 u
  else
    let rs := is_tunnel_running pgrep s u
    if rs.1 then
      ({ rs.2 with
          refs := setKey rs.2.refs u ((lookupKey rs.2.refs u).getD 0 + 1) },
        true)
    else
      spawnTunnel spawnSurvives rs.2 u

/-- `release_device`: decrement the refcount when an entry exists; the
tunnel process itself is left running. -/
def release_device (s : TMState) (u : String) : TMState :=
  match lookupKey s.refs u with
  | none => s
  | some n => { s with refs := setKey s.refs u (n - 1) }

/-- `cleanup`: stop every managed tunnel, then best-effort `pkill` of any
remaining tunnel child. -/
def tmCleanup (s : TMState) : TMState :=
  let s1 := s.managed.foldl (fun acc p => stop_tunnel acc p.1) s
  { s1 with alive := [] }

/-- A child process dying on its own (external event). -/
def procDies (s : TMState) (pid : Nat) : TMState :=
  { s with alive := s.alive.filter (fun p => p ≠ pid) }

/-- The public transitions of the tunnel manager (plus spontaneous child
death).  `pgrep` and `spawnSurvives` capture the environment of each
call. -/
inductive TMEvent
  | start (pgrep : String → Bool) (spawnSurvives : Bool) (u : String) (force : Bool)
  | release (u : String)
  | checkRunning (pgrep : String → Bool) (u : String)
  | cleanupAll
  | dies (pid : Nat)

/-- One transition of the tunnel manager. -/
def TMStep (s : TMState) : TMEvent → TMState
  | .start pg ok u force => (start_tunnel pg ok s u force).1
  | .release u => release_device s u
  | .checkRunning pg u => (is_tunnel_running pg s u).2
  | .cleanupAll => tmCleanup s
  | .dies pid => procDies s pid

/-- States reachable by arbitrary call sequences. -/
inductive TMReach : TMState → Prop
  | init : TMReach TMState.init
  | step (s : TMState) (e : TMEvent) : TMReach s → TMReach (TMStep s e)

/-- States reachable when every `release_device` call happens while the
device's reference count is positive (each release matched by an earlier
acquisition). -/
inductive TMReachG : TMState → Prop
  | init : TMReachG TMState.init
  | start (s : TMState) (pg : String → Bool) (ok : Bool) (u : String)
      (force : Bool) : TMReachG s → TMReachG (TMStep s (.start pg ok u force))
  | release (s : TMState) (u : String)
      (h : 0 < (lookupKey s.refs u).getD 0) :
      TMReachG s → TMReachG (release_device s u)
  | checkRunning (s : TMState) (pg : String → Bool) (u : String) :
      TMReachG s → TMReachG (TMStep s (.checkRunning pg u))
  | cleanupAll (s : TMState) : TMReachG s → TMReachG (tmCleanup s)
  | dies (s : TMState) (pid : Nat) : TMReachG s → TMReachG (procDies s pid)

/-- The tunnel-manager invariant: at most one managed tunnel per UDID
(the udid keys of `managed` are pairwise distinct) and every stored
reference count is non-negative. -/
def TMInv (s : TMState) : Prop :=
  (s.managed.map Prod.fst).Nodup ∧
    ∀ u n, lookupKey s.refs u = some n → 0 ≤ n

/-! ## WDA health-monitor restart (remote/goios_wda_server.py) -/

/-- `GoIOSWDAServer.RESTART_COOLDOWN` (seconds). -/
def RESTART_COOLDOWN : ℚ := 10

/-- The side effects `_attempt_restart` can perform, in order. -/
inductive WDAAction
  | cleanupProcesses
  | startTunnelForce
  | startPortForward
  | startMjpegForward
  | startWda
deriving DecidableEq

/-- `_attempt_restart`: within the cooldown of the last restart the call
returns with no side effects; past the cooldown it stamps the restart
time and re-runs cleanup, tunnel restart with `force=True`, both port
forwards and the WDA runner (the tail is skipped when the tunnel restart
fails and the raised error is caught). -/
def attempt_restart (tunnelOk : Bool) (lastRestart now : ℚ) :
    ℚ × List WDAAction :=
  if now - lastRestart < RESTART_COOLDOWN then (lastRestart, [])
  else
    (now,
      if tunnelOk then
        [.cleanupProcesses, .startTunnelForce, .startPortForward,
         .startMjpegForward, .startWda]
      else
        [.cleanupProcesses, .startTunnelForce])

/-- A sequence of `_attempt_restart` calls at the given times (paired
with the tunnel-restart success of each), threading
`_last_restart_time`; returns the times of the calls that actually
performed a restart. -/
def monitorRestarts (lastRestart : ℚ) : List (ℚ × Bool) → List ℚ
  | [] => []
  | (t, ok) :: rest =>
    let r := attempt_restart ok lastRestart t
    if r.2.isEmpty then monitorRestarts r.1 rest
    else t :: monitorRestarts r.1 rest

/-! ## iOS device-config store (utils/ios_config.py) -/

/-- `IOSConfigManager.DEFAULT_WDA_BUNDLE_ID`. -/
def DEFAULT_WDA_BUNDLE_ID : String := "com.facebook.WebDriverAgentRunner.xctrunner"

/-- `IOSConfigManager.DEFAULT_WDA_PORT`. -/
def DEFAULT_WDA_PORT : Int := 8100

/-- One device's stored configuration dict; a field is `none` when the
key is absent. -/
structure DeviceEntry where
  wda_bundle_id : Option String
  wda_port : Option Int
deriving DecidableEq

/-- The in-memory `_config` dict of `IOSConfigManager` (written through
to disk on every mutation). -/
abbrev ConfigStore : Type := List (String × DeviceEntry)

/-- `get_wda_bundle_id`: stored value or the default. -/
def get_wda_bundle_id (s : ConfigStore) (u : String) : String :=
  (((lookupKey s u).getD ⟨none, none⟩).wda_bundle_id).getD DEFAULT_WDA_BUNDLE_ID

/-- `get_wda_port`: stored value or the default 8100. -/
def get_wda_port (s : ConfigStore) (u : String) : Int :=
  (((lookupKey s u).getD ⟨none, none⟩).wda_port).getD DEFAULT_WDA_PORT

/-- `set_wda_bundle_id`: create the device dict when absent, then write
the field (and save). -/
def set_wda_bundle_id (s : ConfigStore) (u : String) (b : String) :
    ConfigStore :=
  let entry := (lookupKey s u).getD ⟨none, none⟩
  setKey s u { entry with wda_bundle_id := some b }

/-- `set_wda_port`: create the device dict when absent, then write the
field (and save). -/
def set_wda_port (s : ConfigStore) (u : String) (p : Int) : ConfigStore :=
  let entry := (lookupKey s u).getD ⟨none, none⟩
  setKey s u { entry with wda_port := some p }

/-- `get_device_config`: both fields with defaults filled in. -/
def get_device_config (s : ConfigStore) (u : String) : String × Int :=
  (get_wda_bundle_id s u, get_wda_port s u)

/-! ## POST ios-config endpoint (router/device.py set_ios_config) -/

/-- The request body of `POST .../ios-config`; optional fields. -/
structure IOSConfigRequest where
  wda_bundle_id : Option String
  wda_port : Option Int
deriving DecidableEq

/-- Python truthiness of the optional string field (`None` and the empty
string are falsy). -/
def truthyStr : Option String → Bool
  | none => false
  | some s => if s = "" then false else true

/-- Python truthiness of the optional integer field (`None` and 0 are
falsy). -/
def truthyInt : Option Int → Bool
  | none => false
  | some n => if n = 0 then false else true

/-- `set_ios_config`: persist each field only when truthy, then answer
with the resulting resolved configuration. -/
def set_ios_config (s : ConfigStore) (serial : String)
    (req : IOSConfigRequest) : ConfigStore × (String × Int) :=
  let s1 := if truthyStr req.wda_bundle_id then
      set_wda_bundle_id s serial (req.wda_bundle_id.getD "")
    else s
  let s2 := if truthyInt req.wda_port then
      set_wda_port s1 serial (req.wda_port.getD 0)
    else s1
  (s2, get_device_config s2 serial)

/-! ## Shared association-list lemmas -/

theorem lookupKey_setKey_self {α : Type} (l : List (String × α)) (k : String)
    (v : α) : lookupKey (setKey l k v) k = some v := by
  induction l with
  | nil => simp [setKey, lookupKey]
  | cons hd t ih =>
    obtain ⟨k2, v2⟩ := hd
    by_cases hk : k2 = k
    · simp [setKey, lookupKey, hk]
    · simp [setKey, lookupKey, hk, ih]

theorem lookupKey_setKey_ne {α : Type} (l : List (String × α)) (k k2 : String)
    (v : α) (h : k2 ≠ k) : lookupKey (setKey l k v) k2 = lookupKey l k2 := by
  induction l with
  | nil =>
    have hne : ¬k = k2 := fun hh => h hh.symm
    simp [setKey, lookupKey, hne]
  | cons hd t ih =>
    obtain ⟨k3, v3⟩ := hd
    by_cases hk : k3 = k
    · subst hk
      have hne : ¬k3 = k2 := fun hh => h hh.symm
      simp [setKey, lookupKey, hne]
    · simp [setKey, lookupKey, hk, ih]

theorem lookupKey_eraseKey_self {α : Type} (l : List (String × α))
    (k : String) : lookupKey (eraseKey l k) k = none := by
  induction l with
  | nil => simp [eraseKey, lookupKey]
  | cons hd t ih =>
    obtain ⟨k2, v2⟩ := hd
    by_cases hk : k2 = k
    · simp [eraseKey, hk, ih]
    · simp [eraseKey, lookupKey, hk, ih]

theorem lookupKey_eraseKey_ne {α : Type} (l : List (String × α))
    (k k2 : String) (h : k2 ≠ k) :
    lookupKey (eraseKey l k) k2 = lookupKey l k2 := by
  induction l with
  | nil => simp [eraseKey]
  | cons hd t ih =>
    obtain ⟨k3, v3⟩ := hd
    by_cases hk : k3 = k
    · subst hk
      have hne : ¬k3 = k2 := fun hh => h hh.symm
      simp [eraseKey, lookupKey, hne, ih]
    · simp [eraseKey, lookupKey, hk, ih]

/-! ## C4: template size limit -/

/-- C4: `validate_image_exists` rejects a template exactly when its
decoded byte length strictly exceeds 1 MiB (1048576 bytes), returning
found=false with the oversize reason and performing no template
matching; at or below 1048576 bytes the template proceeds to the
dimension check and template matching. -/
theorem image_template_size_limit (env : MatchEnv) (tbytes : List Nat)
    (threshold : ℚ) (hw : env.templateW ≤ env.screenshotW)
    (hh : env.templateH ≤ env.screenshotH) :
    MAX_TEMPLATE_SIZE = 1048576 ∧
    (tbytes.length > 1048576 →
      validate_image_exists env tbytes threshold =
        (false, .oversize tbytes.length)) ∧
    (tbytes.length ≤ 1048576 →
      validate_image_exists env tbytes threshold =
        (decide (threshold ≤ env.maxVal),
          .matched env.maxVal threshold
            (if threshold ≤ env.maxVal then some env.maxLoc else none))) := by
  refine ⟨rfl, ?_, ?_⟩
  · intro hgt
    simp only [validate_image_exists, MAX_TEMPLATE_SIZE]
    rw [if_pos (by omega)]
  · intro hle
    simp only [validate_image_exists, MAX_TEMPLATE_SIZE]
    rw [if_neg (by omega), if_neg (by omega)]
    simp

/-- Witness for C4 at the boundary: a template of exactly 1048576 decoded
bytes is accepted and proceeds to matching, while one of 1048577 bytes is
rejected as oversize. -/
theorem image_template_size_limit_witness :
    (validate_image_exists ⟨2, 2, 1, 1, 1, (0, 0)⟩
        (List.replicate 1048576 0) 0 =
      (decide ((0 : ℚ) ≤ 1), .matched 1 0 (if (0 : ℚ) ≤ 1 then some (0, 0) else none))) ∧
    (validate_image_exists ⟨2, 2, 1, 1, 1, (0, 0)⟩
        (List.replicate 1048577 0) 0 =
      (false, .oversize (List.replicate 1048577 (0 : Nat)).length)) := by
  constructor
  · exact (image_template_size_limit ⟨2, 2, 1, 1, 1, (0, 0)⟩
      (List.replicate 1048576 0) 0 (by norm_num) (by norm_num)).2.2
      (by rw [List.length_replicate])
  · exact (image_template_size_limit ⟨2, 2, 1, 1, 1, (0, 0)⟩
      (List.replicate 1048577 0) 0 (by norm_num) (by norm_num)).2.1
      (by rw [List.length_replicate]; omega)

/-! ## C5: percent-based tap coordinates -/

/-- C5: with `isPercent=true` the driver tap is invoked at the integer
coordinates `int(window_width * x)` and `int(window_height * y)`; in
particular `x=0.5, y=0.5` on a 1080 by 1920 window taps (540, 960), and
`x=1, y=1` taps (1080, 1920), the bottom-right corner of the window. -/
theorem tap_percent_coordinates (winW winH : Int) (x y : ℚ) :
    tap winW winH x y true = (pyInt ((winW : ℚ) * x), pyInt ((winH : ℚ) * y)) ∧
    tap 1080 1920 (1/2) (1/2) true = (540, 960) ∧
    tap 1080 1920 1 1 true = (1080, 1920) := by
  refine ⟨by simp [tap], ?_, ?_⟩
  · simp only [tap, pyInt, if_true]
    norm_num
  · simp only [tap, pyInt, if_true]
    norm_num

/-! ## C9: config store defaults and get-after-set -/

/-- C9: for a UDID with no entry, `get_wda_bundle_id` returns the
default runner bundle id and `get_wda_port` returns 8100; reading a
field immediately after setting it returns the written value, and the
stored configuration of every other UDID is unchanged. -/
theorem ios_config_defaults_roundtrip (s : ConfigStore) (u u2 : String)
    (b : String) (p : Int) :
    (lookupKey s u = none →
      get_wda_bundle_id s u = "com.facebook.WebDriverAgentRunner.xctrunner" ∧
      get_wda_port s u = 8100) ∧
    get_wda_port (set_wda_port s u p) u = p ∧
    get_wda_bundle_id (set_wda_bundle_id s u b) u = b ∧
    (u2 ≠ u →
      lookupKey (set_wda_port s u p) u2 = lookupKey s u2 ∧
      lookupKey (set_wda_bundle_id s u b) u2 = lookupKey s u2) := by
  refine ⟨?_, ?_, ?_, ?_⟩
  · intro hnone
    simp [get_wda_bundle_id, get_wda_port, hnone, DEFAULT_WDA_BUNDLE_ID,
      DEFAULT_WDA_PORT]
  · simp [get_wda_port, set_wda_port, lookupKey_setKey_self]
  · simp [get_wda_bundle_id, set_wda_bundle_id, lookupKey_setKey_self]
  · intro hne
    exact ⟨lookupKey_setKey_ne _ _ _ _ hne, lookupKey_setKey_ne _ _ _ _ hne⟩

/-- Witness for C9 on an empty store with UDIDs "a" and "b". -/
theorem ios_config_defaults_roundtrip_witness :
    (get_wda_bundle_id ([] : ConfigStore) "a" =
        "com.facebook.WebDriverAgentRunner.xctrunner" ∧
      get_wda_port ([] : ConfigStore) "a" = 8100) ∧
    get_wda_port (set_wda_port ([] : ConfigStore) "a" 9100) "a" = 9100 ∧
    get_wda_bundle_id (set_wda_bundle_id ([] : ConfigStore) "a" "x") "a" = "x" ∧
    lookupKey (set_wda_port ([] : ConfigStore) "a" 9100) "b" =
      lookupKey ([] : ConfigStore) "b" := by
  have h := ios_config_defaults_roundtrip ([] : ConfigStore) "a" "b" "x" 9100
  exact ⟨h.1 rfl, h.2.1, h.2.2.1, (h.2.2.2 (by decide)).1⟩

/-! ## C10: POST ios-config truthiness filtering -/

/-- C10: the POST ios-config endpoint persists `wda_bundle_id` only when
it is a truthy (non-empty) string and `wda_port` only when it is a
truthy (nonzero) integer; a request carrying `wda_port=0`,
`wda_bundle_id=""` or omitting a field leaves the stored field unchanged
and the response reports the previously stored or default value. -/
theorem set_ios_config_truthy_persistence (s : ConfigStore) (serial : String)
    (req : IOSConfigRequest) :
    (truthyStr req.wda_bundle_id = false →
      ((lookupKey (set_ios_config s serial req).1 serial).getD
          ⟨none, none⟩).wda_bundle_id =
        ((lookupKey s serial).getD ⟨none, none⟩).wda_bundle_id ∧
      ((set_ios_config s serial req).2).1 = get_wda_bundle_id s serial) ∧
    (truthyInt req.wda_port = false →
      ((lookupKey (set_ios_config s serial req).1 serial).getD
          ⟨none, none⟩).wda_port =
        ((lookupKey s serial).getD ⟨none, none⟩).wda_port ∧
      ((set_ios_config s serial req).2).2 = get_wda_port s serial) ∧
    (truthyStr req.wda_bundle_id = true →
      ((set_ios_config s serial req).2).1 = req.wda_bundle_id.getD "" ∧
      get_wda_bundle_id (set_ios_config s serial req).1 serial =
        req.wda_bundle_id.getD "") ∧
    (truthyInt req.wda_port = true →
      ((set_ios_config s serial req).2).2 = req.wda_port.getD 0 ∧
      get_wda_port (set_ios_config s serial req).1 serial =
        req.wda_port.getD 0) := by
  have hb : ∀ (st : ConfigStore) (b : String),
      lookupKey (set_wda_bundle_id st serial b) serial =
        some { (lookupKey st serial).getD ⟨none, none⟩ with
                wda_bundle_id := some b } := by
    intro st b
    simp [set_wda_bundle_id, lookupKey_setKey_self]
  have hp : ∀ (st : ConfigStore) (p : Int),
      lookupKey (set_wda_port st serial p) serial =
        some { (lookupKey st serial).getD ⟨none, none⟩ with
                wda_port := some p } := by
    intro st p
    simp [set_wda_port, lookupKey_setKey_self]
  refine ⟨?_, ?_, ?_, ?_⟩
  · intro hfb
    cases hti : truthyInt req.wda_port <;>
      simp [set_ios_config, get_device_config, hfb, hti, get_wda_bundle_id,
        get_wda_port, hb, hp]
  · intro hfp
    cases htb : truthyStr req.wda_bundle_id <;>
      simp [set_ios_config, get_device_config, hfp, htb, get_wda_bundle_id,
        get_wda_port, hb, hp]
  · intro htb
    cases hti : truthyInt req.wda_port <;>
      simp [set_ios_config, get_device_config, htb, hti, get_wda_bundle_id,
        get_wda_port, hb, hp]
  · intro hti
    cases htb : truthyStr req.wda_bundle_id <;>
      simp [set_ios_config, get_device_config, htb, hti, get_wda_bundle_id,
        get_wda_port, hb, hp]

/-- Witness for C10: a request with `wda_port=0` and `wda_bundle_id=""`
changes neither stored field and answers with the defaults on an empty
store. -/
theorem set_ios_config_truthy_persistence_witness :
    (((lookupKey (set_ios_config ([] : ConfigStore) "d" ⟨some "", some 0⟩).1
          "d").getD ⟨none, none⟩).wda_bundle_id =
        ((lookupKey ([] : ConfigStore) "d").getD
          (⟨none, none⟩ : DeviceEntry)).wda_bundle_id ∧
      ((set_ios_config ([] : ConfigStore) "d" ⟨some "", some 0⟩).2).1 =
        get_wda_bundle_id ([] : ConfigStore) "d") ∧
    (((lookupKey (set_ios_config ([] : ConfigStore) "d" ⟨some "", some 0⟩).1
          "d").getD ⟨none, none⟩).wda_port =
        ((lookupKey ([] : ConfigStore) "d").getD
          (⟨none, none⟩ : DeviceEntry)).wda_port ∧
      ((set_ios_config ([] : ConfigStore) "d" ⟨some "", some 0⟩).2).2 =
        get_wda_port ([] : ConfigStore) "d") := by
  have h := set_ios_config_truthy_persistence ([] : ConfigStore) "d"
    ⟨some "", some 0⟩
  exact ⟨h.1 (by simp [truthyStr]), h.2.1 (by simp [truthyInt])⟩

/-! ## C2: assertion request validation -/

/-- C2: `execute_combined_assertion` rejects malformed input before any
condition is evaluated (the error results hold for every condition
evaluator): an operator outside and/or raises, an empty condition list
raises, and with waiting enabled a non-positive `timeout` or `interval`
raises; additionally the pydantic `WaitConfig` model rejects a
configuration with `interval > timeout` at request validation. -/
theorem assertion_request_validation {α : Type} (fuel : Nat)
    (operator : String) (conds : List α) (evalC : Nat → α → Bool)
    (wc : WaitDict) (startTime : ℚ) (clock : Nat → ℚ) (e : Bool)
    (t i : Int) :
    (¬(operator = "and" ∨ operator = "or") →
      execute_combined_assertion fuel operator conds evalC (some wc)
        startTime clock = .error .badOperator) ∧
    ((operator = "and" ∨ operator = "or") →
      execute_combined_assertion fuel operator ([] : List α) evalC (some wc)
        startTime clock = .error .emptyConditions) ∧
    ((operator = "and" ∨ operator = "or") → conds ≠ [] →
      wc.enabled = some true → wc.timeout = some t → wc.interval = some i →
      (t ≤ 0 →
        execute_combined_assertion fuel operator conds evalC (some wc)
          startTime clock = .error .badTimeout) ∧
      (0 < t → i ≤ 0 →
        execute_combined_assertion fuel operator conds evalC (some wc)
          startTime clock = .error .badInterval)) ∧
    (t < i → ∀ w, WaitConfig.validate e t i ≠ .ok w) := by
  refine ⟨?_, ?_, ?_, ?_⟩
  · intro hop
    simp [execute_combined_assertion, hop]
  · rintro (h | h) <;> subst h <;> simp [execute_combined_assertion]
  · intro hop hconds hen ht hi
    have hce : conds.isEmpty = false := by
      cases conds with
      | nil => exact absurd rfl hconds
      | cons a l => rfl
    constructor
    · intro ht0
      rcases hop with h | h <;> subst h <;>
        simp [execute_combined_assertion, waitEnabled, waitTimeout,
          waitInterval, hce, hen, ht, hi, ht0]
    · intro htpos hi0
      have hnt : ¬(t ≤ 0) := by omega
      rcases hop with h | h <;> subst h <;>
        simp [execute_combined_assertion, waitEnabled, waitTimeout,
          waitInterval, hce, hen, ht, hi, hnt, hi0]
  · intro hlt w
    by_cases h1 : t ≤ 0 <;> by_cases h2 : i ≤ 0 <;>
      simp [WaitConfig.validate, h1, h2, hlt]

/-- Witness for C2: each rejection exercised at a concrete request, and
`interval=200 > timeout=100` rejected by `WaitConfig`. -/
theorem assertion_request_validation_witness :
    execute_combined_assertion 5 "xor" [()] (fun _ _ => true)
        (some ⟨some true, some 1000, some 100⟩) 0 (fun _ => 0) =
      .error .badOperator ∧
    execute_combined_assertion 5 "and" ([] : List Unit) (fun _ _ => true)
        (some ⟨some true, some 1000, some 100⟩) 0 (fun _ => 0) =
      .error .emptyConditions ∧
    execute_combined_assertion 5 "and" [()] (fun _ _ => true)
        (some ⟨some true, some 0, some 100⟩) 0 (fun _ => 0) =
      .error .badTimeout ∧
    execute_combined_assertion 5 "and" [()] (fun _ _ => true)
        (some ⟨some true, some 1000, some 0⟩) 0 (fun _ => 0) =
      .error .badInterval ∧
    ∀ w, WaitConfig.validate true 100 200 ≠ .ok w := by
  refine ⟨?_, ?_, ?_, ?_, ?_⟩
  · exact (assertion_request_validation 5 "xor" [()] (fun _ _ => true)
      ⟨some true, some 1000, some 100⟩ 0 (fun _ => 0) true 1000 100).1
      (by decide)
  · exact (assertion_request_validation 5 "and" ([] : List Unit)
      (fun _ _ => true) ⟨some true, some 1000, some 100⟩ 0 (fun _ => 0)
      true 1000 100).2.1 (Or.inl rfl)
  · exact ((assertion_request_validation 5 "and" [()] (fun _ _ => true)
      ⟨some true, some 0, some 100⟩ 0 (fun _ => 0) true 0 100).2.2.1
      (Or.inl rfl) (by simp) rfl rfl rfl).1 (by omega)
  · exact ((assertion_request_validation 5 "and" [()] (fun _ _ => true)
      ⟨some true, some 1000, some 0⟩ 0 (fun _ => 0) true 1000 0).2.2.1
      (Or.inl rfl) (by simp) rfl rfl rfl).2 (by omega) (by omega)
  · exact (assertion_request_validation 5 "and" [()] (fun _ _ => true)
      ⟨some true, some 1000, some 0⟩ 0 (fun _ => 0) true 100 200).2.2.2
      (by omega)

/-! ## C3: element existence with platform attribute aliases -/

/-- The spec-side matching predicate of the element condition: an element
satisfies the selector's attributes when every specified non-None
attribute whose key the platform alias table knows maps to a string on
the element equal to the expected one (unknown keys and None values are
ignored). -/
def AttrSpecMatch (platform : String) (attrs : List (String × Option String))
    (e : List (String × String)) : Prop :=
  ∀ kv ∈ attrs, ∀ v, kv.2 = some v →
    ∀ a, lookupKey (platformAttrMapping platform) kv.1 = some a →
      (lookupKey e a).getD "" = v

theorem elemAllMatch_iff (platform : String)
    (attrs : List (String × Option String)) (e : List (String × String)) :
    elemAllMatch (platformAttrMapping platform) attrs e = true ↔
      AttrSpecMatch platform attrs e := by
  unfold elemAllMatch AttrSpecMatch
  rw [List.all_eq_true]
  constructor
  · intro h kv hkv v hv a ha
    have h2 := h kv hkv
    rw [hv] at h2
    rw [ha] at h2
    simpa using h2
  · intro h kv hkv
    rcases hv : kv.2 with _ | v
    · simp [hv]
    · rcases ha : lookupKey (platformAttrMapping platform) kv.1 with _ | a
      · simp [hv, ha]
      · simp [hv, ha, h kv hkv v hv a ha]

/-- C3: for a non-empty XPath result and non-empty attribute map,
`validate_element_exists` reports the element as existing if and only if
some matched element satisfies exact string equality on every specified
attribute after mapping the logical keys through the platform alias
table (unknown keys and None values ignored); otherwise the result is
false with attribute-mismatch details carrying `found_count` and the
xpath. -/
theorem element_exists_attribute_matching (xpath : String)
    (items : List XPathItem) (attrs : List (String × Option String))
    (platform : String) (hne : items ≠ []) (hattrs : attrs ≠ []) :
    ((validate_element_exists xpath items (some attrs) platform).1 = true ↔
      ∃ e, XPathItem.elem e ∈ items ∧ AttrSpecMatch platform attrs e) ∧
    ((validate_element_exists xpath items (some attrs) platform).1 = false →
      validate_element_exists xpath items (some attrs) platform =
        (false, .attrMismatch items.length xpath)) := by
  have hitems : items.isEmpty = false := by
    cases items with
    | nil => exact absurd rfl hne
    | cons a l => rfl
  have hA : attrs.isEmpty = false := by
    cases attrs with
    | nil => exact absurd rfl hattrs
    | cons a l => rfl
  have hAny : items.any (itemPasses (platformAttrMapping platform) attrs)
        = true ↔
      ∃ e, XPathItem.elem e ∈ items ∧ AttrSpecMatch platform attrs e := by
    rw [List.any_eq_true]
    constructor
    · rintro ⟨it, hit, hpass⟩
      cases it with
      | nonElem => simp [itemPasses] at hpass
      | elem e =>
        exact ⟨e, hit, (elemAllMatch_iff platform attrs e).mp hpass⟩
    · rintro ⟨e, he, hmatch⟩
      exact ⟨.elem e, he,
        by simpa [itemPasses] using (elemAllMatch_iff platform attrs e).mpr hmatch⟩
  by_cases hm : items.any (itemPasses (platformAttrMapping platform) attrs)
      = true
  · constructor
    · simp [validate_element_exists, hitems, hA, hm, hAny.mp hm]
    · intro hfalse
      simp [validate_element_exists, hitems, hA, hm] at hfalse
  · constructor
    · constructor
      · intro htrue
        simp [validate_element_exists, hitems, hA, hm] at htrue
      · intro hex
        exact absurd (hAny.mpr hex) hm
    · intro _
      simp [validate_element_exists, hitems, hA, hm]

/-- Witness for C3: the fixture element with `text="Login"` matches the
selector attributes on android. -/
theorem element_exists_attribute_matching_witness :
    (validate_element_exists "q" [XPathItem.elem [("text", "Login")]]
        (some [("text", some "Login")]) "android").1 = true := by
  refine (element_exists_attribute_matching "q"
    [XPathItem.elem [("text", "Login")]] [("text", some "Login")] "android"
    (by simp) (by simp)).1.mpr ?_
  refine ⟨[("text", "Login")], by simp, ?_⟩
  intro kv hkv v hv a ha
  rw [List.mem_singleton] at hkv
  subst hkv
  simp [platformAttrMapping, lookupKey] at ha hv
  subst ha
  subst hv
  simp [lookupKey]

/-! ## C1: combined assertion loop semantics -/

theorem assertLoop_spec {α : Type} (op : String) (conds : List α)
    (evalC : Nat → α → Bool) (enabled : Bool) (timeoutMs intervalMs : Int)
    (startTime deadline : ℚ) (clock : Nat → ℚ) :
    ∀ (fuel attempt : Nat) (sleptRev : List Int) (r : LoopResult),
      assertLoop op conds evalC enabled timeoutMs intervalMs startTime
          deadline clock attempt sleptRev fuel = some r →
      attempt < r.attempts ∧
      r.condResults = conds.map (evalC r.attempts) ∧
      r.sleptMs = sleptRev.reverse ++
        List.replicate (r.attempts - attempt - 1) intervalMs ∧
      (∀ m, attempt < m → m < r.attempts →
        applyOperator op (conds.map (evalC m)) = false ∧ enabled = true ∧
          clock m < deadline) ∧
      (r.success = true ↔
        applyOperator op (conds.map (evalC r.attempts)) = true) ∧
      (r.success = true → r.message = .passed) ∧
      (r.success = false →
        (enabled = false ∧ r.message = .failed ∧ r.attempts = attempt + 1) ∨
        (enabled = true ∧ deadline ≤ clock r.attempts ∧
          r.message = .timedOut
            (pyInt ((clock r.attempts - startTime) * 1000)) timeoutMs
            r.attempts)) := by
  intro fuel
  induction fuel with
  | zero =>
    intro attempt sleptRev r h
    simp [assertLoop] at h
  | succ fuel ih =>
    intro attempt sleptRev r h
    simp only [assertLoop] at h
    by_cases hs : applyOperator op (conds.map (evalC (attempt + 1))) = true
    · rw [if_pos hs] at h
      obtain rfl : (⟨true, .passed, attempt + 1, conds.map (evalC (attempt + 1)),
          sleptRev.reverse⟩ : LoopResult) = r := Option.some.inj h
      refine ⟨Nat.lt_succ_self attempt, rfl, by simp, ?_, by simp [hs],
        fun _ => rfl, by simp⟩
      intro m h1 h2
      have h2a : m < attempt + 1 := h2
      omega
    · rw [if_neg hs] at h
      by_cases he : enabled = false
      · rw [if_pos he] at h
        obtain rfl : (⟨false, .failed, attempt + 1,
            conds.map (evalC (attempt + 1)), sleptRev.reverse⟩ : LoopResult)
            = r := Option.some.inj h
        refine ⟨Nat.lt_succ_self attempt, rfl, by simp, ?_, by simp [hs],
          by simp, ?_⟩
        · intro m h1 h2
          have h2a : m < attempt + 1 := h2
          omega
        · intro _
          exact Or.inl ⟨he, rfl, rfl⟩
      · rw [if_neg he] at h
        by_cases hd : deadline ≤ clock (attempt + 1)
        · rw [if_pos hd] at h
          obtain rfl : (⟨false,
              .timedOut (pyInt ((clock (attempt + 1) - startTime) * 1000))
                timeoutMs (attempt + 1), attempt + 1,
              conds.map (evalC (attempt + 1)), sleptRev.reverse⟩ : LoopResult)
              = r := Option.some.inj h
          refine ⟨Nat.lt_succ_self attempt, rfl, by simp, ?_, by simp [hs],
            by simp, ?_⟩
          · intro m h1 h2
            have h2a : m < attempt + 1 := h2
            omega
          · intro _
            exact Or.inr ⟨by simpa using he, hd, rfl⟩
        · rw [if_neg hd] at h
          have spec := ih (attempt + 1) (intervalMs :: sleptRev) r h
          obtain ⟨ha, hcr, hsl, hmid, hiff, hmsg, hfail⟩ := spec
          have henT : enabled = true := by simpa using he
          have hdlt : clock (attempt + 1) < deadline := lt_of_not_le hd
          refine ⟨by omega, hcr, ?_, ?_, hiff, hmsg, ?_⟩
          · have hA : r.attempts - attempt - 1 =
                (r.attempts - (attempt + 1) - 1) + 1 := by omega
            rw [hA, List.replicate_succ]
            simpa [List.append_assoc] using hsl
          · intro m h1 h2
            by_cases hm : m = attempt + 1
            · subst hm
              exact ⟨by simpa using hs, henT, hdlt⟩
            · exact hmid m (by omega) h2
          · intro hf
            rcases hfail hf with ⟨hfe, _⟩ | hr
            · exact absurd hfe he
            · exact Or.inr hr

/-- C1: for a validated combined-assertion request, every condition is
evaluated on each attempt and the per-condition booleans are combined
with all() for `and` and any() for `or`; success returns the passed
message with the per-condition details; with waiting disabled a failed
combination returns false after exactly one attempt; with waiting
enabled, each non-final attempt had a false combination and a clock
below the deadline `start + timeout/1000` and was followed by an
`interval` ms sleep, and the final failure at or past the deadline
carries the timeout message reporting elapsed time, the timeout and the
attempt count. -/
theorem combined_assertion_loop_spec {α : Type} (fuel : Nat)
    (operator : String) (conds : List α) (evalC : Nat → α → Bool)
    (wc : Option WaitDict) (startTime : ℚ) (clock : Nat → ℚ)
    (r : LoopResult)
    (hok : execute_combined_assertion fuel operator conds evalC wc startTime
      clock = .ok (some r)) :
    (∀ l : List Bool, applyOperator "and" l = l.all id ∧
      applyOperator "or" l = l.any id) ∧
    r.condResults = conds.map (evalC r.attempts) ∧
    1 ≤ r.attempts ∧
    (r.success = true ↔
      applyOperator operator (conds.map (evalC r.attempts)) = true) ∧
    (r.success = true → r.message = .passed) ∧
    (∀ m, 0 < m → m < r.attempts →
      applyOperator operator (conds.map (evalC m)) = false ∧
        waitEnabled wc = true ∧
        clock m < startTime + (waitTimeout wc : ℚ) / 1000) ∧
    r.sleptMs = List.replicate (r.attempts - 1) (waitInterval wc) ∧
    (r.success = false → waitEnabled wc = false →
      r.message = .failed ∧ r.attempts = 1) ∧
    (r.success = false → waitEnabled wc = true →
      startTime + (waitTimeout wc : ℚ) / 1000 ≤ clock r.attempts ∧
      r.message = .timedOut
        (pyInt ((clock r.attempts - startTime) * 1000)) (waitTimeout wc)
        r.attempts) := by
  rw [execute_combined_assertion] at hok
  by_cases hop : operator = "and" ∨ operator = "or"
  swap
  · rw [if_pos hop] at hok
    exact absurd hok (by simp)
  rw [if_neg (not_not_intro hop)] at hok
  by_cases hce : conds.isEmpty
  · rw [if_pos hce] at hok
    exact absurd hok (by simp)
  rw [if_neg hce] at hok
  by_cases h3 : waitEnabled wc = true ∧ waitTimeout wc ≤ 0
  · rw [if_pos h3] at hok
    exact absurd hok (by simp)
  rw [if_neg h3] at hok
  by_cases h4 : waitEnabled wc = true ∧ waitInterval wc ≤ 0
  · rw [if_pos h4] at hok
    exact absurd hok (by simp)
  rw [if_neg h4] at hok
  simp only [Except.ok.injEq] at hok
  have spec := assertLoop_spec operator conds evalC (waitEnabled wc)
    (waitTimeout wc) (waitInterval wc) startTime
    (if waitEnabled wc = true then startTime + (waitTimeout wc : ℚ) / 1000
      else 0) clock fuel 0 [] r hok
  obtain ⟨ha, hcr, hsl, hmid, hiff, hmsg, hfail⟩ := spec
  refine ⟨?_, hcr, by omega, hiff, hmsg, ?_, ?_, ?_, ?_⟩
  · intro l
    constructor
    · simp [applyOperator]
    · simp only [applyOperator]
      rw [if_neg (by decide)]
  · intro m h1 h2
    obtain ⟨hfalse, henT, hclock⟩ := hmid m h1 h2
    rw [if_pos henT] at hclock
    exact ⟨hfalse, henT, hclock⟩
  · simpa using hsl
  · intro hf hen
    rcases hfail hf with ⟨_, hm1, hat⟩ | ⟨henT, _, _⟩
    · exact ⟨hm1, by omega⟩
    · rw [hen] at henT
      exact absurd henT (by simp)
  · intro hf hen
    rcases hfail hf with ⟨hfe, _, _⟩ | ⟨_, hd, hm⟩
    · rw [hen] at hfe
      exact absurd hfe (by simp)
    · rw [if_pos hen] at hd
      exact ⟨hd, hm⟩

/-- Witness for C1: an or-request over one condition that becomes true on
the second attempt passes after one interval sleep. -/
theorem combined_assertion_loop_spec_witness :
    ((⟨true, .passed, 2, [true], [100]⟩ : LoopResult).success = true ↔
      applyOperator "or"
        ([()].map ((fun (n : Nat) (_ : Unit) => decide (n = 2)) 2)) = true) ∧
    (⟨true, .passed, 2, [true], [100]⟩ : LoopResult).sleptMs =
      List.replicate
        ((⟨true, .passed, 2, [true], [100]⟩ : LoopResult).attempts - 1)
        (waitInterval (some ⟨some true, some 1000, some 100⟩)) := by
  have h := combined_assertion_loop_spec 3 "or" [()]
    (fun (n : Nat) (_ : Unit) => decide (n = 2))
    (some ⟨some true, some 1000, some 100⟩) 0 (fun _ => 0)
    ⟨true, .passed, 2, [true], [100]⟩
    (by norm_num [execute_combined_assertion, waitEnabled, waitTimeout,
      waitInterval, assertLoop, applyOperator])
  exact ⟨h.2.2.2.1, h.2.2.2.2.2.2.1⟩

/-! ## C8: restart cooldown -/

theorem monitorRestarts_spec (calls : List (ℚ × Bool)) :
    ∀ l0 : ℚ, (∀ x ∈ monitorRestarts l0 calls, l0 + 10 ≤ x) ∧
      List.Chain' (fun a b => a + 10 ≤ b) (monitorRestarts l0 calls) := by
  induction calls with
  | nil =>
    intro l0
    simp [monitorRestarts]
  | cons c rest ih =>
    intro l0
    obtain ⟨t, ok⟩ := c
    by_cases h : t - l0 < 10
    · have hstep : attempt_restart ok l0 t = (l0, []) := by
        simp [attempt_restart, RESTART_COOLDOWN, h]
      have hrw : monitorRestarts l0 ((t, ok) :: rest) =
          monitorRestarts l0 rest := by
        simp [monitorRestarts, hstep]
      rw [hrw]
      exact ih l0
    · have hne : (attempt_restart ok l0 t).2.isEmpty = false := by
        cases ok <;> simp [attempt_restart, RESTART_COOLDOWN, h]
      have hfst : (attempt_restart ok l0 t).1 = t := by
        cases ok <;> simp [attempt_restart, RESTART_COOLDOWN, h]
      have hrw : monitorRestarts l0 ((t, ok) :: rest) =
          t :: monitorRestarts t rest := by
        rw [monitorRestarts]
        simp only [hne, hfst]
        simp
      rw [hrw]
      have h10 : l0 + 10 ≤ t := by linarith [not_lt.mp h]
      obtain ⟨hall, hchain⟩ := ih t
      constructor
      · intro x hx
        rcases List.mem_cons.mp hx with rfl | hx2
        · exact h10
        · linarith [hall x hx2]
      · rw [List.chain'_cons']
        refine ⟨?_, hchain⟩
        intro y hy
        exact hall y (List.mem_of_mem_head? hy)

/-- C8: two restart cycles performed by `_attempt_restart` are never less
than 10 seconds apart: a call within 10 seconds of the last restart
returns without stopping or starting anything; a call past the cooldown
stamps the restart time and re-runs the restart sequence beginning with
process cleanup and a tunnel restart with `force=true` (continuing with
the port forwards and the WDA runner when the tunnel restart succeeds);
and along any sequence of calls the performed restart times are
consecutively at least 10 seconds apart. -/
theorem restart_cooldown_spec (ok : Bool) (last now : ℚ)
    (calls : List (ℚ × Bool)) (l0 : ℚ) :
    (now - last < 10 → attempt_restart ok last now = (last, [])) ∧
    (¬(now - last < 10) →
      (attempt_restart ok last now).1 = now ∧
      ((ok = true →
          (attempt_restart ok last now).2 =
            [.cleanupProcesses, .startTunnelForce, .startPortForward,
             .startMjpegForward, .startWda]) ∧
        (ok = false →
          (attempt_restart ok last now).2 =
            [.cleanupProcesses, .startTunnelForce]))) ∧
    List.Chain' (fun a b => a + 10 ≤ b) (monitorRestarts l0 calls) := by
  refine ⟨?_, ?_, (monitorRestarts_spec calls l0).2⟩
  · intro h
    simp [attempt_restart, RESTART_COOLDOWN, h]
  · intro h
    refine ⟨by cases ok <;> simp [attempt_restart, RESTART_COOLDOWN, h], ?_, ?_⟩
    · intro hok
      subst hok
      simp [attempt_restart, RESTART_COOLDOWN, h]
    · intro hok
      subst hok
      simp [attempt_restart, RESTART_COOLDOWN, h]

/-- Witness for C8: a call 5 s after a restart does nothing; a call 20 s
after performs the forced restart sequence; the performed restarts of a
concrete call sequence are 10 s apart. -/
theorem restart_cooldown_spec_witness :
    attempt_restart true 0 5 = (0, []) ∧
    (attempt_restart true 0 20).1 = 20 ∧
    (attempt_restart true 0 20).2 =
      [.cleanupProcesses, .startTunnelForce, .startPortForward,
       .startMjpegForward, .startWda] ∧
    List.Chain' (fun a b => a + 10 ≤ b)
      (monitorRestarts 0 [(20, true), (25, true), (31, true)]) := by
  have h1 := restart_cooldown_spec true 0 5
    [(20, true), (25, true), (31, true)] 0
  have h2 := restart_cooldown_spec true 0 20
    [(20, true), (25, true), (31, true)] 0
  have hc := h2.2.1 (by norm_num)
  exact ⟨h1.1 (by norm_num), hc.1, hc.2.1 rfl, h1.2.2⟩

/-! ## C6: click_element polling and tap computation -/

theorem clickSearch_spec (finds : Nat → List PNode) (clock : Nat → ℚ)
    (deadline : ℚ) :
    ∀ (fuel k : Nat) (res : Option PNode × Nat × List ℚ),
      clickSearch finds clock deadline k fuel = some res →
      (∀ n, res.1 = some n →
        k < res.2.1 ∧
        clock (res.2.1 - 1) < deadline ∧
        (finds (res.2.1 - 1)).head? = some n ∧
        (∀ j, k ≤ j → j < res.2.1 - 1 → finds j = [] ∧ clock j < deadline) ∧
        res.2.2 = List.replicate (res.2.1 - 1) (1/2 : ℚ)) ∧
      (res.1 = none →
        k ≤ res.2.1 ∧
        deadline ≤ clock res.2.1 ∧
        (∀ j, k ≤ j → j < res.2.1 → finds j = [] ∧ clock j < deadline) ∧
        res.2.2 = List.replicate res.2.1 (1/2 : ℚ)) := by
  intro fuel
  induction fuel with
  | zero =>
    intro k res h
    simp [clickSearch] at h
  | succ fuel ih =>
    intro k res h
    simp only [clickSearch] at h
    by_cases hc : clock k < deadline
    · rw [if_pos hc] at h
      cases hf : finds k with
      | cons n tail =>
        rw [hf] at h
        obtain rfl : ((some n : Option PNode), k + 1,
            List.replicate k (1/2 : ℚ)) = res := Option.some.inj h
        constructor
        · intro n2 hn2
          obtain rfl : n = n2 := Option.some.inj hn2
          refine ⟨Nat.lt_succ_self k, ?_, ?_, ?_, ?_⟩
          · simpa using hc
          · simp [hf]
          · intro j h1 h2
            simp at h2
            omega
          · simp
        · intro hn
          exact absurd hn (by simp)
      | nil =>
        rw [hf] at h
        replace h : clickSearch finds clock deadline (k + 1) fuel = some res := h
        obtain ⟨hsome, hnone⟩ := ih (k + 1) res h
        constructor
        · intro n hn
          obtain ⟨h1, h2, h3, h4, h5⟩ := hsome n hn
          refine ⟨by omega, h2, h3, ?_, h5⟩
          intro j hj1 hj2
          by_cases hjk : j = k
          · subst hjk
            exact ⟨hf, hc⟩
          · exact h4 j (by omega) hj2
        · intro hn
          obtain ⟨h1, h2, h3, h4⟩ := hnone hn
          refine ⟨by omega, h2, ?_, h4⟩
          intro j hj1 hj2
          by_cases hjk : j = k
          · subst hjk
            exact ⟨hf, hc⟩
          · exact h3 j (by omega) hj2
    · rw [if_neg hc] at h
      obtain rfl : ((none : Option PNode), k, List.replicate k (1/2 : ℚ))
          = res := Option.some.inj h
      constructor
      · intro n hn
        exact absurd hn (by simp)
      · intro _
        refine ⟨le_refl k, le_of_not_lt hc, ?_, rfl⟩
        intro j h1 h2
        simp at h2
        omega

/-- C6: `click_element` polls `find_elements` every 0.5 s while no
element is found and the deadline has not passed; on success it taps the
integer center of the first result, taking the box from `node.bounds`
when it is a 4-element list and otherwise deriving it from the
`x/y/width/height` properties; when neither source is available the
outcome is the ElementNotFound failure; and when the box has
`x2 <= 1 and y2 <= 1` all four coordinates are multiplied by the window
size before the tap. -/
theorem click_element_spec (fuel : Nat) (finds : Nat → List PNode)
    (clock : Nat → ℚ) (deadline : ℚ) (winW winH : ℚ) (out : ClickOutcome)
    (polls : Nat) (sleeps : List ℚ)
    (h : click_element fuel finds clock deadline winW winH =
      some (out, polls, sleeps)) :
    (out = .notFoundTimeout →
      deadline ≤ clock polls ∧ sleeps = List.replicate polls (1/2 : ℚ) ∧
      ∀ j, j < polls → finds j = [] ∧ clock j < deadline) ∧
    (out ≠ .notFoundTimeout →
      ∃ node, (finds (polls - 1)).head? = some node ∧
        clock (polls - 1) < deadline ∧
        (∀ j, j < polls - 1 → finds j = [] ∧ clock j < deadline) ∧
        sleeps = List.replicate (polls - 1) (1/2 : ℚ) ∧
        out = clickTapOutcome winW winH (some node)) ∧
    (∀ (n : PNode) (a b c d : ℚ), n.bounds = some [a, b, c, d] →
      nodeBox n = some (a, b, c, d)) ∧
    (∀ (n : PNode) (x y w hh : ℚ), n.bounds = none →
      lookupKey n.props "x" = some x → lookupKey n.props "y" = some y →
      lookupKey n.props "width" = some w →
      lookupKey n.props "height" = some hh →
      nodeBox n = some (x, y, x + w, y + hh)) ∧
    (∀ n : PNode, n.bounds = none → lookupKey n.props "x" = none →
      clickTapOutcome winW winH (some n) = .boundsUnavailable) ∧
    (∀ (n : PNode) (x1 y1 x2 y2 : ℚ), nodeBox n = some (x1, y1, x2, y2) →
      (x2 ≤ 1 ∧ y2 ≤ 1 →
        clickTapOutcome winW winH (some n) =
          .tapped (pyInt ((x1 + x2) / 2 * winW))
            (pyInt ((y1 + y2) / 2 * winH))) ∧
      (¬(x2 ≤ 1 ∧ y2 ≤ 1) →
        clickTapOutcome winW winH (some n) =
          .tapped (pyInt ((x1 + x2) / 2)) (pyInt ((y1 + y2) / 2)))) := by
  rw [click_element] at h
  cases hcs : clickSearch finds clock deadline 0 fuel with
  | none =>
    rw [hcs] at h
    exact absurd h (by simp)
  | some res =>
    obtain ⟨found, p, slp⟩ := res
    rw [hcs] at h
    replace h : some (clickTapOutcome winW winH found, p, slp) =
        some (out, polls, sleeps) := h
    have hinj := Option.some.inj h
    have hout : clickTapOutcome winW winH found = out :=
      congrArg Prod.fst hinj
    have hp : p = polls := congrArg (fun z => z.2.1) hinj
    have hslp : slp = sleeps := congrArg (fun z => z.2.2) hinj
    obtain ⟨hsome, hnone⟩ := clickSearch_spec finds clock deadline fuel 0
      (found, p, slp) hcs
    subst hp
    refine ⟨?_, ?_, ?_, ?_, ?_, ?_⟩
    · intro hto
      cases hfo : found with
      | some n =>
        rw [hfo] at hout
        rw [← hout] at hto
        rcases hnb : nodeBox n with _ | box
        · simp [clickTapOutcome, hnb] at hto
        · obtain ⟨x1, y1, x2, y2⟩ := box
          simp [clickTapOutcome, hnb] at hto
      | none =>
        rw [hfo] at hnone
        obtain ⟨_, h2, h3, h4⟩ := hnone rfl
        exact ⟨h2, hslp ▸ h4, fun j hj => h3 j (Nat.zero_le j) hj⟩
    · intro hne
      cases hfo : found with
      | none =>
        rw [hfo] at hout
        exact absurd (hout ▸ rfl : out = .notFoundTimeout) hne
      | some n =>
        rw [hfo] at hsome hout
        obtain ⟨h1, h2, h3, h4, h5⟩ := hsome n rfl
        exact ⟨n, h3, h2, fun j hj => h4 j (Nat.zero_le j) hj, hslp ▸ h5,
          hout.symm⟩
    · intro n a b c d hb
      unfold nodeBox
      rw [hb]
      simp
      rfl
    · intro n x y w hh hb hx hy hw hhh
      unfold nodeBox derivedBox
      rw [hb, hx, hy, hw, hhh]
    · intro n hb hx
      rcases hy : lookupKey n.props "y" with _ | y <;>
        rcases hw : lookupKey n.props "width" with _ | w <;>
          rcases hhh : lookupKey n.props "height" with _ | hv <;>
            simp [clickTapOutcome, nodeBox, derivedBox, hb, hx, hy, hw, hhh]
    · intro n x1 y1 x2 y2 hbox
      constructor
      · intro hpc
        have e1 : (x1 * winW + x2 * winW) / 2 = (x1 + x2) / 2 * winW := by
          ring
        have e2 : (y1 * winH + y2 * winH) / 2 = (y1 + y2) / 2 * winH := by
          ring
        simp [clickTapOutcome, hbox, hpc.1, hpc.2, e1, e2]
      · intro hnpc
        simp [clickTapOutcome, hbox, hnpc]

/-- Witness for C6: a concrete run that finds the element on the second
poll (after one 0.5 s sleep) and taps the center (5, 5) of its bounds. -/
theorem click_element_spec_witness :
    ∃ node,
      ((fun j => if j = 0 then ([] : List PNode)
          else [⟨some [0, 0, 10, 10], []⟩]) (2 - 1)).head? = some node ∧
      ((fun j => ((j : Nat) : ℚ)) (2 - 1)) < 10 ∧
      (∀ j, j < 2 - 1 →
        (fun j => if j = 0 then ([] : List PNode)
          else [⟨some [0, 0, 10, 10], []⟩]) j = [] ∧
        ((fun j => ((j : Nat) : ℚ)) j) < 10) ∧
      ([1/2] : List ℚ) = List.replicate (2 - 1) (1/2 : ℚ) ∧
      ClickOutcome.tapped 5 5 = clickTapOutcome 100 200 (some node) := by
  have h := click_element_spec 3
    (fun j => if j = 0 then ([] : List PNode)
      else [⟨some [0, 0, 10, 10], []⟩])
    (fun j => ((j : Nat) : ℚ)) 10 100 200 (.tapped 5 5) 2 [1/2]
    (by norm_num [click_element, clickSearch, clickTapOutcome, nodeBox,
      derivedBox, pyInt])
  exact h.2.1 (by simp)

/-! ## C7: tunnel manager invariants -/

theorem mem_keys_setKey {α : Type} (l : List (String × α)) (k k2 : String)
    (v : α) :
    k2 ∈ (setKey l k v).map Prod.fst ↔ k2 ∈ l.map Prod.fst ∨ k2 = k := by
  induction l with
  | nil =>
    simp only [setKey, List.map_cons, List.map_nil, List.mem_cons,
      List.not_mem_nil, false_or]
    tauto
  | cons hd t ih =>
    obtain ⟨k3, v3⟩ := hd
    by_cases hk : k3 = k
    · subst hk
      simp only [setKey, if_true]
      simp only [List.map_cons, List.mem_cons]
      tauto
    · simp only [setKey]
      rw [if_neg hk]
      simp only [List.map_cons, List.mem_cons, ih]
      tauto

theorem setKey_keys_nodup {α : Type} (l : List (String × α)) (k : String)
    (v : α) (h : (l.map Prod.fst).Nodup) :
    ((setKey l k v).map Prod.fst).Nodup := by
  induction l with
  | nil => simp [setKey]
  | cons hd t ih =>
    obtain ⟨k3, v3⟩ := hd
    rw [List.map_cons, List.nodup_cons] at h
    by_cases hk : k3 = k
    · subst hk
      simp only [setKey, if_true]
      simp only [List.map_cons, List.nodup_cons]
      exact h
    · simp only [setKey]
      rw [if_neg hk]
      simp only [List.map_cons, List.nodup_cons]
      refine ⟨?_, ih h.2⟩
      intro hmem
      rcases (mem_keys_setKey t k k3 v).mp hmem with hin | heq
      · exact h.1 hin
      · exact hk heq

theorem eraseKey_keys_sublist {α : Type} (l : List (String × α))
    (k : String) :
    ((eraseKey l k).map Prod.fst).Sublist (l.map Prod.fst) := by
  induction l with
  | nil => simp [eraseKey]
  | cons hd t ih =>
    obtain ⟨k3, v3⟩ := hd
    by_cases hk : k3 = k
    · simp only [eraseKey, if_pos hk, List.map_cons]
      exact ih.cons k3
    · simp only [eraseKey, if_neg hk, List.map_cons]
      exact ih.cons₂ k3

theorem eraseKey_keys_nodup {α : Type} (l : List (String × α)) (k : String)
    (h : (l.map Prod.fst).Nodup) : ((eraseKey l k).map Prod.fst).Nodup :=
  h.sublist (eraseKey_keys_sublist l k)

/-! Evaluation equations for the tunnel-manager operations. -/

theorem is_tunnel_running_eq_none (pg : String → Bool) (s : TMState)
    (u : String) (hm : lookupKey s.managed u = none) :
    is_tunnel_running pg s u = (pg u, s) := by
  simp [is_tunnel_running, hm]

theorem is_tunnel_running_eq_alive (pg : String → Bool) (s : TMState)
    (u : String) (pid : Nat) (hm : lookupKey s.managed u = some pid)
    (hp : pid ∈ s.alive) : is_tunnel_running pg s u = (true, s) := by
  simp [is_tunnel_running, hm, hp]

theorem is_tunnel_running_eq_dead (pg : String → Bool) (s : TMState)
    (u : String) (pid : Nat) (hm : lookupKey s.managed u = some pid)
    (hp : pid ∉ s.alive) :
    is_tunnel_running pg s u =
      (pg u, { s with managed := eraseKey s.managed u,
                      refs := eraseKey s.refs u }) := by
  simp [is_tunnel_running, hm, hp]

theorem stop_tunnel_eq_none (s : TMState) (u : String)
    (hm : lookupKey s.managed u = none) : stop_tunnel s u = s := by
  simp [stop_tunnel, hm]

theorem stop_tunnel_eq_some (s : TMState) (u : String) (pid : Nat)
    (hm : lookupKey s.managed u = some pid) :
    stop_tunnel s u =
      { s with managed := eraseKey s.managed u,
               refs := eraseKey s.refs u,
               alive := s.alive.filter (fun p => p ≠ pid) } := by
  simp [stop_tunnel, hm]

theorem release_device_eq_none (s : TMState) (u : String)
    (hm : lookupKey s.refs u = none) : release_device s u = s := by
  simp [release_device, hm]

theorem release_device_eq_some (s : TMState) (u : String) (n : Int)
    (hm : lookupKey s.refs u = some n) :
    release_device s u = { s with refs := setKey s.refs u (n - 1) } := by
  simp [release_device, hm]

/-! Invariant preservation. -/

theorem TMInv_init : TMInv TMState.init := by
  constructor
  · simp [TMState.init]
  · intro u n h
    simp [TMState.init, lookupKey] at h

theorem TMInv_erase_both (s : TMState) (u : String) (h : TMInv s) :
    TMInv { s with managed := eraseKey s.managed u,
                   refs := eraseKey s.refs u } := by
  refine ⟨eraseKey_keys_nodup _ _ h.1, ?_⟩
  intro u2 n hl
  simp only at hl
  by_cases hu : u2 = u
  · subst hu
    rw [lookupKey_eraseKey_self] at hl
    cases hl
  · rw [lookupKey_eraseKey_ne _ _ _ hu] at hl
    exact h.2 u2 n hl

theorem TMInv_is_tunnel_running (pg : String → Bool) (s : TMState)
    (u : String) (h : TMInv s) : TMInv (is_tunnel_running pg s u).2 := by
  rcases hm : lookupKey s.managed u with _ | pid
  · rw [is_tunnel_running_eq_none pg s u hm]
    exact h
  · by_cases hp : pid ∈ s.alive
    · rw [is_tunnel_running_eq_alive pg s u pid hm hp]
      exact h
    · rw [is_tunnel_running_eq_dead pg s u pid hm hp]
      exact TMInv_erase_both s u h

theorem TMInv_stop_tunnel (s : TMState) (u : String) (h : TMInv s) :
    TMInv (stop_tunnel s u) := by
  rcases hm : lookupKey s.managed u with _ | pid
  · rw [stop_tunnel_eq_none s u hm]
    exact h
  · rw [stop_tunnel_eq_some s u pid hm]
    have h2 := TMInv_erase_both s u h
    exact ⟨h2.1, h2.2⟩

theorem TMInv_set_ref (s : TMState) (u : String) (v : Int) (hv : 0 ≤ v)
    (h : TMInv s) : TMInv { s with refs := setKey s.refs u v } := by
  refine ⟨h.1, ?_⟩
  intro u2 n hl
  simp only at hl
  by_cases hu : u2 = u
  · subst hu
    rw [lookupKey_setKey_self] at hl
    obtain rfl := Option.some.inj hl
    exact hv
  · rw [lookupKey_setKey_ne _ _ _ _ hu] at hl
    exact h.2 u2 n hl

theorem TMInv_spawnTunnel (ok : Bool) (s : TMState) (u : String)
    (h : TMInv s) : TMInv (spawnTunnel ok s u).1 := by
  cases ok
  · simpa [spawnTunnel] using h
  · have heq : (spawnTunnel true s u).1 =
        { s with managed := setKey s.managed u s.nextPid,
                 refs := setKey s.refs u 1,
                 alive := s.nextPid :: s.alive,
                 nextPid := s.nextPid + 1 } := by
      simp [spawnTunnel]
    rw [heq]
    refine ⟨setKey_keys_nodup _ _ _ h.1, ?_⟩
    intro u2 n hl
    by_cases hu : u2 = u
    · subst hu
      rw [lookupKey_setKey_self] at hl
      obtain rfl := Option.some.inj hl
      omega
    · rw [lookupKey_setKey_ne _ _ _ _ hu] at hl
      exact h.2 u2 n hl

theorem TMInv_start_tunnel (pg : String → Bool) (ok : Bool) (s : TMState)
    (u : String) (force : Bool) (h : TMInv s) :
    TMInv (start_tunnel pg ok s u force).1 := by
  cases force
  · rw [start_tunnel]
    simp only [Bool.false_eq_true, if_false]
    have h2 := TMInv_is_tunnel_running pg s u h
    by_cases hr : (is_tunnel_running pg s u).1
    · simp only [hr, if_true]
      apply TMInv_set_ref _ u _ ?_ h2
      rcases hold : lookupKey (is_tunnel_running pg s u).2.refs u with _ | m
      · simp [hold]
      · have := h2.2 u m hold
        simp [hold]
        omega
    · simp only [hr, if_false]
      exact TMInv_spawnTunnel ok _ u h2
  · rw [start_tunnel]
    simp only [if_true]
    by_cases hm : (lookupKey s.managed u).isSome
    · simp only [hm, if_true]
      exact TMInv_spawnTunnel ok _ u (TMInv_stop_tunnel s u h)
    · simp only [hm, if_false]
      exact TMInv_spawnTunnel ok s u h

theorem TMInv_release_guarded (s : TMState) (u : String)
    (hg : 0 < (lookupKey s.refs u).getD 0) (h : TMInv s) :
    TMInv (release_device s u) := by
  rcases hm : lookupKey s.refs u with _ | n
  · rw [release_device_eq_none s u hm]
    exact h
  · rw [release_device_eq_some s u n hm]
    rw [hm] at hg
    simp at hg
    exact TMInv_set_ref s u (n - 1) (by omega) h

theorem TMInv_cleanup (s : TMState) (h : TMInv s) : TMInv (tmCleanup s) := by
  rw [tmCleanup]
  have hfold : ∀ (l : List (String × Nat)) (s0 : TMState), TMInv s0 →
      TMInv (l.foldl (fun acc p => stop_tunnel acc p.1) s0) := by
    intro l
    induction l with
    | nil =>
      intro s0 h0
      simpa using h0
    | cons hd t ih =>
      intro s0 h0
      exact ih _ (TMInv_stop_tunnel s0 hd.1 h0)
  have h1 := hfold s.managed s h
  exact ⟨h1.1, h1.2⟩

theorem TMInv_procDies (s : TMState) (pid : Nat) (h : TMInv s) :
    TMInv (procDies s pid) := by
  rw [procDies]
  exact ⟨h.1, h.2⟩

/-- The invariant holds in every state reachable with guarded releases. -/
theorem TMInv_reachG (s : TMState) (h : TMReachG s) : TMInv s := by
  induction h with
  | init => exact TMInv_init
  | start s pg ok u force _ ih => exact TMInv_start_tunnel pg ok s u force ih
  | release s u hg _ ih => exact TMInv_release_guarded s u hg ih
  | checkRunning s pg u _ ih => exact TMInv_is_tunnel_running pg s u ih
  | cleanupAll s _ ih => exact TMInv_cleanup s ih
  | dies s pid _ ih => exact TMInv_procDies s pid ih

/-- C7 counterexample: the invariant claimed for every reachable state is
false as stated: after one successful `start_tunnel` and two
`release_device` calls the reference count of the device is -1, so
non-negativity does not hold in all states reachable through the public
interface. -/
theorem tunnel_refcount_counterexample :
    ¬ (∀ s : TMState, TMReach s →
        (s.managed.map Prod.fst).Nodup ∧
        ∀ u n, lookupKey s.refs u = some n → 0 ≤ n) := by
  intro hclaim
  have hreach : TMReach (TMStep (TMStep (TMStep TMState.init
      (.start (fun _ => false) true "u" false)) (.release "u"))
      (.release "u")) :=
    .step _ _ (.step _ _ (.step _ _ .init))
  have hneg := (hclaim _ hreach).2 "u" (-1) (by decide)
  omega

/-- C7 (amended): in every state reachable when each `release_device`
call happens while the device's reference count is positive, each UDID
has at most one managed tunnel child and every reference count is
non-negative (unmatched releases can drive a count negative);
`start_tunnel` on a running tunnel with `force=false` only increments
the count; and `release_device` only decrements the count — it never
touches the managed processes, so a count reaching 0 does not terminate
the tunnel. -/
theorem tunnel_manager_invariant (s : TMState) (u : String) (pid : Nat)
    (pg : String → Bool) (ok : Bool) (hreach : TMReachG s) :
    ((s.managed.map Prod.fst).Nodup ∧
      ∀ u2 n, lookupKey s.refs u2 = some n → 0 ≤ n) ∧
    (lookupKey s.managed u = some pid → pid ∈ s.alive →
      start_tunnel pg ok s u false =
        ({ s with refs :=
            setKey s.refs u ((lookupKey s.refs u).getD 0 + 1) }, true)) ∧
    ((release_device s u).managed = s.managed ∧
      (release_device s u).alive = s.alive ∧
      ∀ n, lookupKey s.refs u = some n →
        lookupKey (release_device s u).refs u = some (n - 1)) := by
  have hinv := TMInv_reachG s hreach
  refine ⟨⟨hinv.1, hinv.2⟩, ?_, ?_, ?_, ?_⟩
  · intro hm hp
    simp [start_tunnel, is_tunnel_running, hm, hp]
  · unfold release_device
    rcases hm : lookupKey s.refs u with _ | n <;> rfl
  · unfold release_device
    rcases hm : lookupKey s.refs u with _ | n <;> rfl
  · intro n hm
    unfold release_device
    rw [hm]
    simp [lookupKey_setKey_self]

/-- Witness for C7 (amended): the state after one successful
`start_tunnel("u")` is reachable, satisfies the invariant, and a second
non-forced `start_tunnel` on it only increments the count. -/
theorem tunnel_manager_invariant_witness :
    (((⟨[("u", 0)], [("u", 1)], [0], 1⟩ : TMState).managed.map
        Prod.fst).Nodup ∧
      ∀ u2 n, lookupKey (⟨[("u", 0)], [("u", 1)], [0], 1⟩ : TMState).refs u2
        = some n → 0 ≤ n) ∧
    start_tunnel (fun _ => false) true ⟨[("u", 0)], [("u", 1)], [0], 1⟩ "u"
        false =
      ({ (⟨[("u", 0)], [("u", 1)], [0], 1⟩ : TMState) with
          refs := setKey [("u", 1)] "u"
            ((lookupKey [("u", 1)] "u").getD 0 + 1) }, true) := by
  have hr : TMReachG (⟨[("u", 0)], [("u", 1)], [0], 1⟩ : TMState) :=
    TMReachG.start TMState.init (fun _ => false) true "u" false TMReachG.init
  have h := tunnel_manager_invariant ⟨[("u", 0)], [("u", 1)], [0], 1⟩ "u" 0
    (fun _ => false) true hr
  exact ⟨h.1, h.2.1 (by decide) (by decide)⟩

end ByteAutoUI
